import Mathlib

/-!
# Verification of the options backtester core (`backtester/backtest.py`, `backtester/strategies.py`)

Shallow embedding of the simulation engine, the position/leg model, the
default strategy and the metrics calculator.  Python floats are modelled as
exact rationals (`ℚ`); `None` as `Option.none`; a raised Python exception as
an `Except.error` carrying the exception's kind.  pandas' `NaN` (which the
source produces through `Series.std()` on short series) is modelled as
`Option.none` in the fields that can carry it, and `float('inf')` likewise.
A `DataFrame.loc` lookup that can raise `KeyError` is modelled as a total
function into `Option`.
-/

/-- Python 3 `round(q)` with no digits argument: round half to even
(banker's rounding), returning an integer.  Used for the at-the-money strike
`atm = round(price / 5) * 5`. -/
def pyRound (q : ℚ) : ℤ :=
  let f := ⌊q⌋
  let frac := q - f
  if frac < 1/2 then f
  else if 1/2 < frac then f + 1
  else if f % 2 = 0 then f else f + 1

/-- Source `round(price / 5) * 5`: the at-the-money strike used both by interval
validation and by the default strategy's strike selection. -/
def atmStrike (price : ℚ) : ℚ :=
  ((pyRound (price / 5) * 5 : ℤ) : ℚ)

/-- One row of the pivoted option-chain DataFrame for a `(timestamp, strike)`
key: columns `('bid', is_call)` and `('mid', is_call)` for both rights.
(`ask` also exists in the data but is never read by the core.) -/
structure ChainRec where
  bidC : ℚ
  midC : ℚ
  bidP : ℚ
  midP : ℚ
deriving DecidableEq

/-- The chains DataFrame: `chains.loc[(time, strike)]` is a lookup that
raises `KeyError` on a missing key, modelled as `none`.  Timestamps are
seconds (`ℕ`), strikes are rationals. -/
def Chains : Type := ℕ → ℚ → Option ChainRec

/-- One row of `self.underlying.iterrows()`: the timestamp
(`index_quotes.name`) and the underlying price (`index_quotes['price']`). -/
structure QuoteInterval where
  time : ℕ
  price : ℚ
deriving DecidableEq

/-- Source `strategies.OptionPosition`: one option leg.  `right` is the Python
string `'C'` or `'P'`, modelled as a `Char`. -/
structure OptionPosition where
  strike : ℚ
  right : Char
  entry_price : ℚ
  quantity : ℤ
  entry_mid : ℚ
  exit_mid : Option ℚ := none
deriving DecidableEq

/-- Source `OptionPosition.pnl`:
`(self.exit_mid - self.entry_price) * self.quantity if self.exit_mid else 0`.
Python truthiness: the `if self.exit_mid` test is `False` both when
`exit_mid` is `None` and when it is `0.0`. -/
def OptionPosition.pnl (o : OptionPosition) : ℚ :=
  match o.exit_mid with
  | none => 0
  | some m => if m = 0 then 0 else (m - o.entry_price) * o.quantity

/-- Source `strategies.Position`: an open or closed trade with its legs. -/
structure Position where
  entry_time : ℕ
  direction : ℤ
  options : List OptionPosition
  exit_time : Option ℕ := none
deriving DecidableEq

/-- Source `Position.pnl = sum(opt.pnl for opt in self.options)`. -/
def Position.pnl (p : Position) : ℚ :=
  (p.options.map OptionPosition.pnl).sum

/-- Source `Position.entry_price() = sum(opt.entry_price * opt.quantity for opt in self.options)`. -/
def Position.entry_price (p : Position) : ℚ :=
  (p.options.map fun o => o.entry_price * (o.quantity : ℚ)).sum

/-- Source `Position.current_price()`:
`sum(opt.exit_mid * opt.quantity for opt in self.options) if self.options and self.options[0].exit_mid else 0`.
The guard is falsy when the leg list is empty, or the first leg's `exit_mid`
is `None` or `0.0`; then Python returns `0`.  When the guard holds but some
other leg's `exit_mid` is `None`, the multiplication raises `TypeError`,
modelled as `none`. -/
def Position.current_price (p : Position) : Option ℚ :=
  match p.options with
  | [] => some 0
  | o :: _ =>
    match o.exit_mid with
    | none => some 0
    | some m =>
      if m = 0 then some 0
      else (p.options.mapM (fun (o2 : OptionPosition) =>
        o2.exit_mid.map fun x => x * (o2.quantity : ℚ))).map List.sum

/-- The kinds of Python exception the embedded core can raise. -/
inductive PyErr where
  | keyError
  | zeroDivisionError
  | indexError
deriving DecidableEq

/-- The `for opt in self.options:` loop of `Position.update_mids`: each leg
gets `opt.exit_mid = chains.loc[(time, opt.strike), ('mid', is_call)]` with
`is_call = opt.right == 'C'`; a missing key raises `KeyError` at the first
offending leg.  After the loop the `logger.debug` f-string of `update_mids`
eagerly evaluates `self.pnl/self.entry_price()`, which raises
`ZeroDivisionError` when the summed entry value is zero. -/
def updateLegs (chains : Chains) (time : ℕ) :
    List OptionPosition → Except PyErr (List OptionPosition)
  | [] => Except.ok []
  | opt :: rest =>
    match chains time opt.strike with
    | none => Except.error PyErr.keyError
    | some r =>
      match updateLegs chains time rest with
      | Except.error e => Except.error e
      | Except.ok rest' =>
        Except.ok ({ opt with exit_mid := some (if opt.right = 'C' then r.midC else r.midP) } :: rest')

/-- Source `Position.update_mids(chains, time)` proper: update every leg, then the
trailing `logger.debug` call divides by `self.entry_price()`. -/
def Position.update_mids (p : Position) (chains : Chains) (time : ℕ) :
    Except PyErr Position :=
  match updateLegs chains time p.options with
  | Except.error e => Except.error e
  | Except.ok opts =>
    let p' := { p with options := opts }
    if p'.entry_price = 0 then Except.error PyErr.zeroDivisionError
    else Except.ok p'

/-- Source `strategies.Strategy.__init__`: the immutable configuration of the
default strategy (`profit_pct=0.5`, `loss_pct=-1.0`). -/
structure Strategy where
  profit_pct : ℚ := 1/2
  loss_pct : ℚ := -1
deriving DecidableEq

/-- Source `Strategy.check_entry(index_quotes, chains)`: strikes `atm ± 5` around
the rounded underlying price; `KeyError`/`IndexError` on the two chain
lookups is caught and yields `None`; non-positive bid/mid on either leg
yields `None`; a position is opened only when `call_mid > put_mid`.
(The `call_data.empty or put_data.empty` test in the source can never fire
after a successful exact-key `.loc`, so it has no counterpart here.) -/
def Strategy.check_entry (_self : Strategy) (index_quotes : QuoteInterval)
    (chains : Chains) : Option Position :=
  let price := index_quotes.price
  let atm := atmStrike price
  let call_strike := atm + 5
  let put_strike := atm - 5
  match chains index_quotes.time call_strike, chains index_quotes.time put_strike with
  | some call_data, some put_data =>
    let call_bid := call_data.bidC
    let call_mid := call_data.midC
    let put_bid := put_data.bidP
    let put_mid := put_data.midP
    if 0 < call_bid ∧ 0 < call_mid ∧ 0 < put_bid ∧ 0 < put_mid then
      if put_mid < call_mid then
        some { entry_time := index_quotes.time
               direction := 1
               options :=
                 [ { strike := call_strike, right := 'C', entry_price := call_bid,
                     quantity := 1, entry_mid := call_mid }
                 , { strike := put_strike, right := 'P', entry_price := put_bid,
                     quantity := 1, entry_mid := put_mid } ] }
      else none
    else none
  | _, _ => none

/-- Source `Strategy.check_exit(position, index_quotes)`:
`initial_value = abs(sum(opt.entry_price * opt.quantity))`;
`pnl_pct = position.pnl / initial_value`; exit when
`pnl_pct >= profit_pct or pnl_pct <= loss_pct`.  (In Python a zero
`initial_value` raises `ZeroDivisionError`; theorems about this function
carry the hypothesis that it is nonzero.) -/
def Strategy.check_exit (self : Strategy) (position : Position)
    (_index_quotes : QuoteInterval) : Bool :=
  let initial_value := |position.entry_price|
  let pnl_pct := position.pnl / initial_value
  decide (self.profit_pct ≤ pnl_pct ∨ pnl_pct ≤ self.loss_pct)

/-- The duck-typed strategy contract the engine calls: any object with
`check_entry` and `check_exit`.  Concrete strategies (the default
`Strategy` above, the examples' subclasses) implement it. -/
structure StratIface where
  check_entry : QuoteInterval → Chains → Option Position
  check_exit : Position → QuoteInterval → Bool

/-- The default `Strategy` instance seen through the engine's contract. -/
def Strategy.iface (s : Strategy) : StratIface :=
  ⟨s.check_entry, s.check_exit⟩

/-- The engine's mutable state during `Backtest.run`: `self.current_position`
and the closed-positions list `self.positions`. -/
structure BState where
  current : Option Position
  positions : List Position
deriving DecidableEq

/-- A record of one strategy call made by the engine, tagging the value of
`self.current_position` at the moment of the call. -/
inductive StratCall where
  | entryCall (current : Option Position)
  | exitCall (current : Option Position)
deriving DecidableEq

/-- Source `Backtest._validate_interval(time, index, chains)`: requires
`index['price'] > 0`, a chain row at `(time, round(price/5)*5)` (a
`KeyError`/`IndexError` is caught and yields `False`), and positive ATM call
and put mids. -/
def Backtest.validate_interval (time : ℕ) (price : ℚ) (chains : Chains) : Bool :=
  if ¬ 0 < price then false
  else
    match chains time (atmStrike price) with
    | none => false
    | some atm_data => decide (0 < atm_data.midC) && decide (0 < atm_data.midP)

/-- The `if self.current_position:` block of `Backtest.run` for one interval:
revalue the open position (mutating it in place), ask the strategy whether to
exit, and on exit stamp `exit_time`, append to the closed list and clear the
current position.  Returns the strategy calls made. -/
def Backtest.exitStep (strat : StratIface) (chains : Chains) (s : BState)
    (iv : QuoteInterval) : List StratCall × Except PyErr BState :=
  match s.current with
  | none => ([], Except.ok s)
  | some p =>
    match p.update_mids chains iv.time with
    | Except.error e => ([], Except.error e)
    | Except.ok p' =>
      let sMut : BState := ⟨some p', s.positions⟩
      let ev := StratCall.exitCall sMut.current
      if strat.check_exit p' iv then
        ([ev], Except.ok ⟨none, sMut.positions ++ [{ p' with exit_time := some iv.time }]⟩)
      else
        ([ev], Except.ok sMut)

/-- The `if not self.current_position:` block of `Backtest.run` for one
interval: when no position is open, ask the strategy for an entry. -/
def Backtest.entryStep (strat : StratIface) (chains : Chains) (s : BState)
    (iv : QuoteInterval) : List StratCall × BState :=
  match s.current with
  | some _ => ([], s)
  | none =>
    let ev := StratCall.entryCall s.current
    match strat.check_entry iv chains with
    | some pos => ([ev], ⟨some pos, s.positions⟩)
    | none => ([ev], s)

/-- One iteration of the `for time, index in self.underlying.iterrows()`
loop: skip the interval wholesale when validation fails, otherwise run the
exit block then the entry block. -/
def Backtest.step (strat : StratIface) (chains : Chains) (s : BState)
    (iv : QuoteInterval) : List StratCall × Except PyErr BState :=
  if Backtest.validate_interval iv.time iv.price chains then
    match Backtest.exitStep strat chains s iv with
    | (evs, Except.error e) => (evs, Except.error e)
    | (evs, Except.ok s1) =>
      let (evs2, s2) := Backtest.entryStep strat chains s1 iv
      (evs ++ evs2, Except.ok s2)
  else ([], Except.ok s)

/-- The whole interval loop of `Backtest.run`, threading the engine state and
collecting every strategy call; an uncaught exception stops the walk. -/
def Backtest.runAux (strat : StratIface) (chains : Chains) (s : BState) :
    List QuoteInterval → List StratCall × Except PyErr BState
  | [] => ([], Except.ok s)
  | iv :: rest =>
    match Backtest.step strat chains s iv with
    | (evs, Except.error e) => (evs, Except.error e)
    | (evs, Except.ok s') =>
      let (evs', r) := Backtest.runAux strat chains s' rest
      (evs ++ evs', r)

/-- Source `Backtest.run` up to (but not including) the metrics computation: the
interval loop followed by the end-of-backtest block, which force-closes any
still-open position at `self.underlying.index[-1]` (an empty index would
raise `IndexError`).  Returns the strategy-call trace and either the final
closed-positions list or the exception that aborted the run. -/
def Backtest.runState (strat : StratIface) (chains : Chains)
    (underlying : List QuoteInterval) : List StratCall × Except PyErr (List Position) :=
  match Backtest.runAux strat chains ⟨none, []⟩ underlying with
  | (evs, Except.error e) => (evs, Except.error e)
  | (evs, Except.ok s) =>
    match s.current with
    | none => (evs, Except.ok s.positions)
    | some p =>
      match underlying.getLast? with
      | none => (evs, Except.error PyErr.indexError)
      | some last =>
        match p.update_mids chains last.time with
        | Except.error e => (evs, Except.error e)
        | Except.ok p' =>
          (evs, Except.ok (s.positions ++ [{ p' with exit_time := some last.time }]))

/-- The per-trade returns Series of `_calculate_metrics`:
`pd.Series([p.pnl / abs(p.entry_price()) for p in self.positions])`.
(Python raises `ZeroDivisionError` when some `abs(p.entry_price())` is zero;
theorems about the metrics carry that nonzeroness as a hypothesis.) -/
def tradeReturns (ps : List Position) : List ℚ :=
  ps.map fun p => p.pnl / |p.entry_price|

/-- Source `total_return = total_pnl / sum(abs(p.entry_price()) for p in self.positions)`. -/
def totalReturn (ps : List Position) : ℚ :=
  (ps.map Position.pnl).sum / (ps.map fun p => |p.entry_price|).sum

/-- Source `(1 + returns).cumprod()`: the running products of a list. -/
def cumProd (l : List ℚ) : List ℚ :=
  (l.scanl (· * ·) 1).tail

/-- Source `cumulative_returns.expanding().max()`: the running maxima of a list. -/
def runningMax : List ℚ → List ℚ
  | [] => []
  | a :: rest => rest.scanl max a

/-- Source `Series.min()` of a nonempty list (only ever applied to one). -/
def listMin : List ℚ → ℚ
  | [] => 0
  | a :: rest => rest.foldl min a

/-- Source `abs(drawdowns.min())` for `drawdowns = cumulative_returns / rolling_max - 1`
over the cumulative products of `1 + r_i`. -/
def maxDrawdown (returns : List ℚ) : ℚ :=
  let cum := cumProd (returns.map (1 + ·))
  let roll := runningMax cum
  |listMin (List.zipWith (fun c m => c / m - 1) cum roll)|

/-- pandas `Series.std()` (ddof=1): `NaN` (here `none`) for fewer than two
elements, otherwise the sample standard deviation. -/
noncomputable def pdStd (l : List ℚ) : Option ℝ :=
  if 2 ≤ l.length then
    some (Real.sqrt ((((l.map fun x => (x - l.sum / l.length) ^ 2).sum) / ((l.length : ℚ) - 1) : ℚ) : ℝ))
  else none

/-- Source `downside_std = downside_returns.std() if len(downside_returns) > 0 else 0`
with `downside_returns = returns[returns < 0]`. -/
noncomputable def downsideStd (ps : List Position) : Option ℝ :=
  let downside := (tradeReturns ps).filter (· < 0)
  if 0 < downside.length then pdStd downside else some 0

/-- Source `sortino = total_return / downside_std if downside_std != 0 else total_return`.
In Python `NaN != 0` is `True` and `total_return / NaN` is `NaN`, so a `NaN`
`downside_std` yields a `NaN` sortino. -/
noncomputable def sortinoOf (ps : List Position) : Option ℝ :=
  match downsideStd ps with
  | none => none
  | some s => if s ≠ 0 then some ((totalReturn ps : ℝ) / s) else some ((totalReturn ps : ℝ))

/-- The result dict of `Backtest._calculate_metrics`.  `ret` is the dict key
`'return'` (a Lean keyword).  `sortino` is `none` when the Python value is
`NaN`; `profit_factor` is `none` when it is `float('inf')`. -/
structure MetricsResult where
  total_pnl : ℚ
  win_rate : ℚ
  num_positions : ℕ
  mar : ℚ
  sortino : Option ℝ
  ret : ℚ
  profit_factor : Option ℚ

/-- Source `Backtest._calculate_metrics`: the fixed zero record for an empty
closed-positions list, otherwise the derived statistics. -/
noncomputable def calculateMetrics (ps : List Position) : MetricsResult :=
  match ps with
  | [] =>
    { total_pnl := 0, win_rate := 0, num_positions := 0, mar := 0,
      sortino := some 0, ret := 0, profit_factor := some 0 }
  | _ =>
    let total_pnl := (ps.map Position.pnl).sum
    let wins := (ps.filter fun p => 0 < p.pnl).length
    let max_drawdown := maxDrawdown (tradeReturns ps)
    let total_return := totalReturn ps
    let mar := if max_drawdown ≠ 0 then total_return / max_drawdown else total_return
    let gross_profit := ((ps.filter fun p => 0 < p.pnl).map Position.pnl).sum
    let gross_loss := |((ps.filter fun p => p.pnl < 0).map Position.pnl).sum|
    { total_pnl := total_pnl
      win_rate := (wins : ℚ) / (ps.length : ℚ)
      num_positions := ps.length
      mar := mar
      sortino := sortinoOf ps
      ret := total_return * 100
      profit_factor := if gross_loss ≠ 0 then some (gross_profit / gross_loss) else none }

/-- Source `Backtest.run`: the interval walk followed by `_calculate_metrics`; an
uncaught exception aborts the run before any metrics are computed. -/
noncomputable def Backtest.run (strat : StratIface) (chains : Chains)
    (underlying : List QuoteInterval) : List StratCall × Except PyErr MetricsResult :=
  match Backtest.runState strat chains underlying with
  | (evs, Except.error e) => (evs, Except.error e)
  | (evs, Except.ok ps) => (evs, Except.ok (calculateMetrics ps))

/-- Modelled from the spec's words for comparison with the source (§3):
`entry_notional = Σ |leg.entry_price × leg.quantity|` — the sum of per-leg
absolute entry values.  The source instead uses `abs(p.entry_price())`, the
absolute value of the signed sum. -/
def specEntryNotional (p : Position) : ℚ :=
  (p.options.map fun o => |o.entry_price * (o.quantity : ℚ)|).sum

/-! ## Fixtures used by the concrete witnesses -/

/-- A chain table offering, at every timestamp, an ATM strike 100 row plus
the two wing strikes 95 and 105 the default strategy trades. -/
def chainsA : Chains := fun _t k =>
  if k = 100 then some ⟨19, 20, 17, 18⟩
  else if k = 105 then some ⟨19, 20, 1, 1⟩
  else if k = 95 then some ⟨1, 1, 17, 18⟩
  else none

/-- Like `chainsA` at second 1, but from second 2 on only the ATM strike 100
row remains: an open wing position can no longer be revalued. -/
def chainsB : Chains := fun t k =>
  if t = 1 then
    (if k = 100 then some ⟨19, 20, 17, 18⟩
     else if k = 105 then some ⟨19, 20, 1, 1⟩
     else if k = 95 then some ⟨1, 1, 17, 18⟩
     else none)
  else if k = 100 then some ⟨19, 20, 17, 18⟩ else none

/-- The default strategy with its default parameters, as the engine sees it. -/
def dflt : StratIface := Strategy.iface {}

/-- The position the default strategy opens at second 1 on `chainsA`/`chainsB`. -/
def posA : Position :=
  ⟨1, 1, [⟨105, 'C', 19, 1, 20, none⟩, ⟨95, 'P', 17, 1, 18, none⟩], none⟩

/-- The position of `posA` after revaluation on `chainsA`. -/
def posA2 : Position :=
  ⟨1, 1, [⟨105, 'C', 19, 1, 20, some 20⟩, ⟨95, 'P', 17, 1, 18, some 18⟩], none⟩

/-! ## The engine's strategy-call invariant (C1) -/

/-- Whether one recorded strategy call satisfies the engine's invariant:
an entry query must see no open position, an exit query must see one. -/
def callOk : StratCall → Bool
  | StratCall.entryCall c => c.isNone
  | StratCall.exitCall c => c.isSome

lemma Backtest.exitStep_calls_ok (strat : StratIface) (chains : Chains) (s : BState)
    (iv : QuoteInterval) : ∀ ev ∈ (Backtest.exitStep strat chains s iv).1, callOk ev = true := by
  intro ev hev
  simp only [Backtest.exitStep] at hev
  split at hev
  · simp at hev
  · split at hev
    · simp at hev
    · split at hev <;> simp at hev <;> subst hev <;> rfl

lemma Backtest.entryStep_calls_ok (strat : StratIface) (chains : Chains) (s : BState)
    (iv : QuoteInterval) : ∀ ev ∈ (Backtest.entryStep strat chains s iv).1, callOk ev = true := by
  intro ev hev
  simp only [Backtest.entryStep] at hev
  split at hev
  · simp at hev
  · rename_i hc
    split at hev <;> simp at hev <;> subst hev <;> simp [callOk, hc]

lemma Backtest.step_calls_ok (strat : StratIface) (chains : Chains) (s : BState)
    (iv : QuoteInterval) : ∀ ev ∈ (Backtest.step strat chains s iv).1, callOk ev = true := by
  intro ev hev
  simp only [Backtest.step] at hev
  split at hev
  · split at hev
    · rename_i hx
      simp at hev
      exact Backtest.exitStep_calls_ok strat chains s iv ev (by rw [hx]; exact hev)
    · rename_i evs s1 hx
      rcases hy : Backtest.entryStep strat chains s1 iv with ⟨evs2, s2⟩
      rw [hy] at hev
      simp at hev
      rcases hev with h | h
      · exact Backtest.exitStep_calls_ok strat chains s iv ev (by rw [hx]; exact h)
      · exact Backtest.entryStep_calls_ok strat chains s1 iv ev (by rw [hy]; exact h)
  · simp at hev

lemma Backtest.runAux_calls_ok (strat : StratIface) (chains : Chains) :
    ∀ (l : List QuoteInterval) (s : BState),
      ∀ ev ∈ (Backtest.runAux strat chains s l).1, callOk ev = true := by
  intro l
  induction l with
  | nil => intro s ev hev; simp [Backtest.runAux] at hev
  | cons iv rest ih =>
    intro s ev hev
    simp only [Backtest.runAux] at hev
    split at hev
    · rename_i hx
      simp at hev
      exact Backtest.step_calls_ok strat chains s iv ev (by rw [hx]; exact hev)
    · rename_i evs s' hx
      rcases hy : Backtest.runAux strat chains s' rest with ⟨evs', r'⟩
      rw [hy] at hev
      simp at hev
      rcases hev with h | h
      · exact Backtest.step_calls_ok strat chains s iv ev (by rw [hx]; exact h)
      · exact ih s' ev (by rw [hy]; exact h)

lemma Backtest.runState_calls (strat : StratIface) (chains : Chains)
    (underlying : List QuoteInterval) :
    (Backtest.runState strat chains underlying).1 =
      (Backtest.runAux strat chains ⟨none, []⟩ underlying).1 := by
  simp only [Backtest.runState]
  split
  · rename_i h; rw [h]
  · rename_i evs s h
    rw [h]
    split
    · rfl
    · split
      · rfl
      · split <;> rfl

lemma Backtest.run_calls (strat : StratIface) (chains : Chains)
    (underlying : List QuoteInterval) :
    (Backtest.run strat chains underlying).1 = (Backtest.runState strat chains underlying).1 := by
  simp only [Backtest.run]
  split
  · rename_i h; rw [h]
  · rename_i evs ps h; rw [h]

/-- C1: in every run of the simulation engine, the strategy's entry check is
consulted only while the engine holds no open position, and its exit check
only while one is open — over every strategy, chain table and underlying
series. -/
theorem C1_check_calls_respect_position_state (strat : StratIface) (chains : Chains)
    (underlying : List QuoteInterval) :
    ∀ ev ∈ (Backtest.run strat chains underlying).1, callOk ev = true := by
  intro ev hev
  rw [Backtest.run_calls, Backtest.runState_calls] at hev
  exact Backtest.runAux_calls_ok strat chains underlying ⟨none, []⟩ ev hev

/-- C1 witness: a concrete one-interval run makes an entry call with no open
position, and the invariant theorem applies to it. -/
theorem C1_check_calls_respect_position_state_witness :
    StratCall.entryCall none ∈ (Backtest.run dflt chainsA [⟨1, 100⟩]).1 ∧
      callOk (StratCall.entryCall none) = true := by
  constructor
  · norm_num [Backtest.run, Backtest.runState, Backtest.runAux, Backtest.step,
      Backtest.exitStep, Backtest.entryStep, Backtest.validate_interval,
      Strategy.check_entry, Strategy.check_exit, Strategy.iface, dflt, chainsA, pyRound,
      atmStrike, Position.update_mids, updateLegs, Position.pnl, Position.entry_price,
      OptionPosition.pnl, (by decide : ('P' = 'C') = False)]
  · exact C1_check_calls_respect_position_state dflt chainsA [⟨1, 100⟩]
      (StratCall.entryCall none)
      (by norm_num [Backtest.run, Backtest.runState, Backtest.runAux, Backtest.step,
        Backtest.exitStep, Backtest.entryStep, Backtest.validate_interval,
        Strategy.check_entry, Strategy.check_exit, Strategy.iface, dflt, chainsA, pyRound,
        atmStrike, Position.update_mids, updateLegs, Position.pnl, Position.entry_price,
        OptionPosition.pnl, (by decide : ('P' = 'C') = False)])

/-! ## Skipping invalid intervals (C6) -/

/-- C6: a failed interval validation skips the interval wholesale — the
engine state (current position, its legs, the closed list) is unchanged and
no strategy call is made; and validation can only fail for one of the
reasons the claim lists: non-positive price, missing ATM chain row, or a
non-positive ATM call or put mid. -/
theorem C6_invalid_interval_is_skipped (strat : StratIface) (chains : Chains) (s : BState)
    (iv : QuoteInterval)
    (h : Backtest.validate_interval iv.time iv.price chains = false) :
    Backtest.step strat chains s iv = ([], Except.ok s) ∧
      (¬ 0 < iv.price ∨ chains iv.time (atmStrike iv.price) = none ∨
        ∃ r, chains iv.time (atmStrike iv.price) = some r ∧ (r.midC ≤ 0 ∨ r.midP ≤ 0)) := by
  constructor
  · simp [Backtest.step, h]
  · unfold Backtest.validate_interval at h
    by_cases hp : 0 < iv.price
    · rcases hc : chains iv.time (atmStrike iv.price) with _ | r
      · exact Or.inr (Or.inl rfl)
      · refine Or.inr (Or.inr ⟨r, rfl, ?_⟩)
        rw [hc] at h
        simp [hp] at h
        by_cases hcc : 0 < r.midC
        · exact Or.inr (h hcc)
        · exact Or.inl (not_lt.mp hcc)
    · exact Or.inl hp

/-- C6 witness: a zero-price interval is invalid, and the step leaves the
state untouched with no strategy call. -/
theorem C6_invalid_interval_is_skipped_witness :
    Backtest.validate_interval 3 0 chainsA = false ∧
      Backtest.step dflt chainsA ⟨none, []⟩ ⟨3, 0⟩ = ([], Except.ok ⟨none, []⟩) := by
  have h : Backtest.validate_interval 3 0 chainsA = false := by
    norm_num [Backtest.validate_interval]
  exact ⟨h, (C6_invalid_interval_is_skipped dflt chainsA ⟨none, []⟩ ⟨3, 0⟩ h).1⟩

/-! ## Valuation failure aborts the run (C4) -/

lemma updateLegs_miss (chains : Chains) (t : ℕ) :
    ∀ l : List OptionPosition, (∃ o ∈ l, chains t o.strike = none) →
      updateLegs chains t l = Except.error PyErr.keyError := by
  intro l
  induction l with
  | nil => rintro ⟨o, ho, -⟩; simp at ho
  | cons a l ih =>
    rintro ⟨o, ho, hco⟩
    rcases hca : chains t a.strike with _ | r
    · simp [updateLegs, hca]
    · rcases List.mem_cons.mp ho with rfl | ho'
      · rw [hca] at hco; cases hco
      · simp [updateLegs, hca, ih ⟨o, ho', hco⟩]

lemma Position.update_mids_miss (p : Position) (chains : Chains) (t : ℕ)
    (h : ∃ o ∈ p.options, chains t o.strike = none) :
    p.update_mids chains t = Except.error PyErr.keyError := by
  simp [Position.update_mids, updateLegs_miss chains t p.options h]

lemma Backtest.runAux_extend_error (strat : StratIface) (chains : Chains) :
    ∀ (pre : List QuoteInterval) (s : BState) (evs : List StratCall) (s' : BState),
      Backtest.runAux strat chains s pre = (evs, Except.ok s') →
      ∀ (iv : QuoteInterval) (rest : List QuoteInterval) (e : PyErr),
        (Backtest.step strat chains s' iv).2 = Except.error e →
        ∃ evs2, Backtest.runAux strat chains s (pre ++ iv :: rest) = (evs2, Except.error e) := by
  intro pre
  induction pre with
  | nil =>
    intro s evs s' h iv rest e hstep
    have hs : s = s' := by
      have h2 := congrArg Prod.snd h
      simpa [Backtest.runAux] using h2
    subst hs
    simp only [List.nil_append, Backtest.runAux]
    rcases hx : Backtest.step strat chains s iv with ⟨evs1, r⟩
    rw [hx] at hstep
    rcases r with e' | s1
    · cases hstep
      exact ⟨evs1, rfl⟩
    · cases hstep
  | cons jv pre' ih =>
    intro s evs s' h iv rest e hstep
    simp only [Backtest.runAux] at h
    rcases hx : Backtest.step strat chains s jv with ⟨evs1, r⟩
    rw [hx] at h
    rcases r with e' | s1
    · cases h
    · replace h : (evs1 ++ (Backtest.runAux strat chains s1 pre').1,
          (Backtest.runAux strat chains s1 pre').2) = (evs, Except.ok s') := h
      rcases hy : Backtest.runAux strat chains s1 pre' with ⟨evs2', r2⟩
      rw [hy] at h
      have hr2 : r2 = Except.ok s' := by
        have h2 := congrArg Prod.snd h
        simpa using h2
      subst hr2
      obtain ⟨evs3, h3⟩ := ih s1 evs2' s' hy iv rest e hstep
      refine ⟨evs1 ++ evs3, ?_⟩
      simp only [List.cons_append, Backtest.runAux, hx, List.append_eq, h3]

/-- C4: when the open position cannot be revalued at a validated interval
(the chain lookup misses for some leg), the run aborts with the uncaught
`KeyError` and produces no metrics. -/
theorem C4_valuation_failure_aborts (strat : StratIface) (chains : Chains)
    (pre : List QuoteInterval) (iv : QuoteInterval) (rest : List QuoteInterval)
    (evs : List StratCall) (s : BState) (p : Position)
    (h1 : Backtest.runAux strat chains ⟨none, []⟩ pre = (evs, Except.ok s))
    (h2 : s.current = some p)
    (h3 : Backtest.validate_interval iv.time iv.price chains = true)
    (h4 : ∃ o ∈ p.options, chains iv.time o.strike = none) :
    (Backtest.runState strat chains (pre ++ iv :: rest)).2 = Except.error PyErr.keyError ∧
      (Backtest.run strat chains (pre ++ iv :: rest)).2 = Except.error PyErr.keyError := by
  have hm : p.update_mids chains iv.time = Except.error PyErr.keyError :=
    Position.update_mids_miss p chains iv.time h4
  have hstep : (Backtest.step strat chains s iv).2 = Except.error PyErr.keyError := by
    simp only [Backtest.step, h3, if_true, Backtest.exitStep, h2, hm]
  obtain ⟨evs2, hr⟩ :=
    Backtest.runAux_extend_error strat chains pre ⟨none, []⟩ evs s h1 iv rest PyErr.keyError hstep
  have h5 : (Backtest.runState strat chains (pre ++ iv :: rest)).2 =
      Except.error PyErr.keyError := by
    simp only [Backtest.runState, hr]
  refine ⟨h5, ?_⟩
  rcases hq : Backtest.runState strat chains (pre ++ iv :: rest) with ⟨evsq, rq⟩
  rw [hq] at h5
  simp at h5
  subst h5
  simp only [Backtest.run, hq]

/-- C4 witness: on `chainsB` the wing strikes disappear at second 2; the
position opened at second 1 cannot be revalued and the run errors out. -/
theorem C4_valuation_failure_aborts_witness :
    Backtest.runAux dflt chainsB ⟨none, []⟩ [⟨1, 100⟩] =
      ([StratCall.entryCall none], Except.ok ⟨some posA, []⟩) ∧
    (Backtest.runState dflt chainsB [⟨1, 100⟩, ⟨2, 100⟩]).2 = Except.error PyErr.keyError := by
  have h1 : Backtest.runAux dflt chainsB ⟨none, []⟩ [⟨1, 100⟩] =
      ([StratCall.entryCall none], Except.ok ⟨some posA, []⟩) := by
    norm_num [Backtest.runAux, Backtest.step, Backtest.exitStep, Backtest.entryStep,
      Backtest.validate_interval, Strategy.check_entry, Strategy.check_exit, Strategy.iface,
      dflt, chainsB, posA, pyRound, atmStrike]
  refine ⟨h1, ?_⟩
  exact (C4_valuation_failure_aborts dflt chainsB [⟨1, 100⟩] ⟨2, 100⟩ [] _ _ posA h1 rfl
    (by norm_num [Backtest.validate_interval, chainsB, pyRound, atmStrike])
    ⟨⟨105, 'C', 19, 1, 20, none⟩, by simp [posA], by norm_num [chainsB]⟩).1

/-! ## End-of-backtest forced close (C5) -/

/-- C5: a position still open after the last interval is force-closed
regardless of the exit policy: its legs are revalued at the final
timestamp, `exit_time` is set to that timestamp, and the position is
appended to the closed list (which feeds the metrics). -/
theorem C5_eod_force_close (strat : StratIface) (chains : Chains)
    (underlying : List QuoteInterval) (evs : List StratCall) (s : BState)
    (p : Position) (last : QuoteInterval) (p' : Position)
    (h1 : Backtest.runAux strat chains ⟨none, []⟩ underlying = (evs, Except.ok s))
    (h2 : s.current = some p)
    (h3 : underlying.getLast? = some last)
    (h4 : p.update_mids chains last.time = Except.ok p') :
    Backtest.runState strat chains underlying =
      (evs, Except.ok (s.positions ++ [{ p' with exit_time := some last.time }])) ∧
    (Backtest.run strat chains underlying).2 =
      Except.ok (calculateMetrics (s.positions ++ [{ p' with exit_time := some last.time }])) := by
  have h5 : Backtest.runState strat chains underlying =
      (evs, Except.ok (s.positions ++ [{ p' with exit_time := some last.time }])) := by
    simp only [Backtest.runState, h1, h2, h3, h4]
  exact ⟨h5, by simp only [Backtest.run, h5]⟩

/-- C5 witness: with flat prices the default strategy never exits; the
position opened at second 1 is still open after second 2 and is closed at
timestamp 2 by the terminal block. -/
theorem C5_eod_force_close_witness :
    Backtest.runAux dflt chainsA ⟨none, []⟩ [⟨1, 100⟩, ⟨2, 100⟩] =
      ([StratCall.entryCall none, StratCall.exitCall (some posA2)], Except.ok ⟨some posA2, []⟩) ∧
    Backtest.runState dflt chainsA [⟨1, 100⟩, ⟨2, 100⟩] =
      ([StratCall.entryCall none, StratCall.exitCall (some posA2)],
        Except.ok [{ posA2 with exit_time := some 2 }]) := by
  have h1 : Backtest.runAux dflt chainsA ⟨none, []⟩ [⟨1, 100⟩, ⟨2, 100⟩] =
      ([StratCall.entryCall none, StratCall.exitCall (some posA2)],
        Except.ok ⟨some posA2, []⟩) := by
    norm_num [Backtest.runAux, Backtest.step, Backtest.exitStep, Backtest.entryStep,
      Backtest.validate_interval, Strategy.check_entry, Strategy.check_exit, Strategy.iface,
      dflt, chainsA, posA2, pyRound, atmStrike, Position.update_mids, updateLegs,
      Position.pnl, Position.entry_price, OptionPosition.pnl,
      (by decide : ('P' = 'C') = False)]
  have h4 : posA2.update_mids chainsA 2 = Except.ok posA2 := by
    norm_num [Position.update_mids, Position.entry_price, chainsA, posA2, updateLegs,
      (by decide : ('P' = 'C') = False)]
  exact ⟨h1, (C5_eod_force_close dflt chainsA [⟨1, 100⟩, ⟨2, 100⟩] _ _ posA2 ⟨2, 100⟩ posA2
    h1 rfl rfl h4).1⟩

/-! ## Per-trade returns and entry notional (C2) -/

/-- A closed position whose two legs have opposite-sign entry values:
`sum(|entry_price * quantity|) = 3` but `abs(sum(entry_price * quantity)) = 1`. -/
def posMixed : Position :=
  ⟨1, 1, [⟨105, 'C', 1, 1, 1, some 2⟩, ⟨95, 'P', 2, -1, 2, some 2⟩], some 2⟩

/-- C2 counterexample: on `posMixed` the metrics' reported return disagrees
with the claim's `total_pnl / Σ entry_notional` where
`entry_notional = Σ |entry_price × quantity|` (the code gives 100, the
claim's formula 100/3). -/
theorem C2_sum_of_abs_notional_refuted :
    (calculateMetrics [posMixed]).ret ≠
      (([posMixed].map Position.pnl).sum / ([posMixed].map specEntryNotional).sum) * 100 := by
  norm_num [calculateMetrics, totalReturn, specEntryNotional, posMixed, Position.pnl,
    Position.entry_price, OptionPosition.pnl]

/-- C2 (amended): each per-trade return is
`position.pnl / abs(position.entry_price())` and the reported return is
`total_pnl / Σ abs(entry_price())` × 100 — the absolute value of the summed
signed entry value `Σ entry_price×quantity`, not the sum of per-leg absolute
values.  (A zero `abs(entry_price())` would raise `ZeroDivisionError` in the
source, hence the nonzeroness hypothesis.) -/
theorem C2_returns_use_abs_of_summed_entry (ps : List Position)
    (h1 : ps ≠ []) (h2 : ∀ p ∈ ps, p.entry_price ≠ 0) :
    tradeReturns ps = ps.map (fun p => p.pnl / |p.entry_price|) ∧
    (calculateMetrics ps).total_pnl = (ps.map Position.pnl).sum ∧
    (calculateMetrics ps).ret =
      ((ps.map Position.pnl).sum / (ps.map fun p => |p.entry_price|).sum) * 100 := by
  cases ps with
  | nil => exact absurd rfl h1
  | cons p rest =>
    refine ⟨rfl, ?_, ?_⟩ <;> simp [calculateMetrics, totalReturn]

/-- C2 witness -/
theorem C2_returns_use_abs_of_summed_entry_witness :
    (([posA2] : List Position) ≠ [] ∧ ∀ p ∈ [posA2], p.entry_price ≠ 0) ∧
      (calculateMetrics [posA2]).ret =
        (([posA2].map Position.pnl).sum / ([posA2].map fun p => |p.entry_price|).sum) * 100 := by
  have h2 : ∀ p ∈ [posA2], p.entry_price ≠ 0 := by
    intro p hp
    rw [List.mem_singleton.mp hp]
    norm_num [posA2, Position.entry_price]
  exact ⟨⟨by simp, h2⟩,
    (C2_returns_use_abs_of_summed_entry [posA2] (by simp) h2).2.2⟩

/-! ## The default exit policy's threshold (C3) -/

lemma Backtest.entryStep_positions (strat : StratIface) (chains : Chains) (s : BState)
    (iv : QuoteInterval) : ((Backtest.entryStep strat chains s iv).2).positions = s.positions := by
  simp only [Backtest.entryStep]
  split
  · rfl
  · split <;> rfl

/-- C3 counterexample: on `posMixed` the default `check_exit` (with its
default `profit_pct=0.5`, `loss_pct=-1`) fires, while the claim's formula
over `entry_notional = Σ |entry_price × quantity|` says it must not. -/
theorem C3_exit_notional_refuted :
    Strategy.check_exit {} posMixed ⟨2, 100⟩ = true ∧
      ¬ (({} : Strategy).profit_pct ≤ posMixed.pnl / specEntryNotional posMixed ∨
          posMixed.pnl / specEntryNotional posMixed ≤ ({} : Strategy).loss_pct) := by
  constructor
  · norm_num [Strategy.check_exit, posMixed, Position.pnl, Position.entry_price,
      OptionPosition.pnl]
  · norm_num [specEntryNotional, posMixed, Position.pnl, OptionPosition.pnl]

/-- C3 (amended): the default `check_exit` is true exactly when
`pnl / abs(sum(entry_price*quantity)) >= profit_pct` or `<= loss_pct` (the
absolute value of the summed entry value, not the per-leg absolute sum);
and in the engine a revalued open position closes at exactly the interval
where that ratio first satisfies a threshold: the step appends it with
`exit_time` equal to that interval's timestamp the moment the condition
holds, and leaves it open (nothing appended) while it does not. -/
theorem C3_exit_threshold_and_timing (cfg : Strategy) :
    (∀ (q : Position) (iv : QuoteInterval), q.entry_price ≠ 0 →
      (Strategy.check_exit cfg q iv = true ↔
        (cfg.profit_pct ≤ q.pnl / |q.entry_price| ∨ q.pnl / |q.entry_price| ≤ cfg.loss_pct))) ∧
    (∀ (chains : Chains) (s : BState) (p p' : Position) (iv : QuoteInterval),
      s.current = some p →
      Backtest.validate_interval iv.time iv.price chains = true →
      p.update_mids chains iv.time = Except.ok p' →
      ((cfg.profit_pct ≤ p'.pnl / |p'.entry_price| ∨ p'.pnl / |p'.entry_price| ≤ cfg.loss_pct) →
        ∃ evs2 s2, Backtest.step cfg.iface chains s iv =
            (StratCall.exitCall (some p') :: evs2, Except.ok s2) ∧
          s2.positions = s.positions ++ [{ p' with exit_time := some iv.time }]) ∧
      (¬ (cfg.profit_pct ≤ p'.pnl / |p'.entry_price| ∨ p'.pnl / |p'.entry_price| ≤ cfg.loss_pct) →
        Backtest.step cfg.iface chains s iv =
          ([StratCall.exitCall (some p')], Except.ok ⟨some p', s.positions⟩))) := by
  have hiff : ∀ (q : Position) (iv : QuoteInterval),
      Strategy.check_exit cfg q iv = true ↔
        (cfg.profit_pct ≤ q.pnl / |q.entry_price| ∨ q.pnl / |q.entry_price| ≤ cfg.loss_pct) := by
    intro q iv
    simp [Strategy.check_exit]
  refine ⟨fun q iv _ => hiff q iv, ?_⟩
  intro chains s p p' iv hcur hv hm
  constructor
  · intro hcond
    have hx : Strategy.check_exit cfg p' iv = true := (hiff p' iv).mpr hcond
    refine ⟨(Backtest.entryStep cfg.iface chains
        ⟨none, s.positions ++ [{ p' with exit_time := some iv.time }]⟩ iv).1,
      (Backtest.entryStep cfg.iface chains
        ⟨none, s.positions ++ [{ p' with exit_time := some iv.time }]⟩ iv).2, ?_, ?_⟩
    · simp only [Backtest.step, hv, if_true, Backtest.exitStep, hcur, hm, Strategy.iface, hx]
      simp
    · rw [Backtest.entryStep_positions]
  · intro hcond
    have hx : Strategy.check_exit cfg p' iv = false := by
      rw [← Bool.not_eq_true]
      exact fun hc => hcond ((hiff p' iv).mp hc)
    simp only [Backtest.step, hv, if_true, Backtest.exitStep, hcur, hm, Strategy.iface, hx]
    simp [Backtest.entryStep]

/-- C3 witness: the ratio characterisation at the concrete revalued position
`posA2` (ratio 1/18), and the engine step leaving it open at that interval. -/
theorem C3_exit_threshold_and_timing_witness :
    (posA2.entry_price ≠ 0 ∧
      (Strategy.check_exit {} posA2 ⟨2, 100⟩ = true ↔
        (({} : Strategy).profit_pct ≤ posA2.pnl / |posA2.entry_price| ∨
          posA2.pnl / |posA2.entry_price| ≤ ({} : Strategy).loss_pct))) ∧
    Backtest.step (Strategy.iface {}) chainsA ⟨some posA, []⟩ ⟨2, 100⟩ =
      ([StratCall.exitCall (some posA2)], Except.ok ⟨some posA2, []⟩) := by
  have hep : posA2.entry_price ≠ 0 := by
    norm_num [posA2, Position.entry_price]
  constructor
  · exact ⟨hep, (C3_exit_threshold_and_timing {}).1 posA2 ⟨2, 100⟩ hep⟩
  · refine ((C3_exit_threshold_and_timing {}).2 chainsA ⟨some posA, []⟩ posA posA2 ⟨2, 100⟩
      rfl ?_ ?_).2 ?_
    · norm_num [Backtest.validate_interval, chainsA, pyRound, atmStrike]
    · norm_num [Position.update_mids, updateLegs, Position.entry_price, chainsA, posA, posA2,
        (by decide : ('P' = 'C') = False)]
    · norm_num [posA2, Position.pnl, Position.entry_price, OptionPosition.pnl]

/-! ## Leg P&L and Python truthiness (C7) -/

/-- A leg whose `exit_mid` has been set to `0.0`. -/
def legZ : OptionPosition := ⟨5, 'C', 5, 1, 5, some 0⟩

/-- C7 counterexample: `legZ` has its `exit_mid` set (to `0.0`), yet its pnl
is `0`, not `(0 − 5) × 1 = −5` as the claim requires for any set value. -/
theorem C7_zero_exit_mid_refuted :
    legZ.exit_mid = some 0 ∧ legZ.pnl = 0 ∧
      legZ.pnl ≠ ((0 : ℚ) - legZ.entry_price) * legZ.quantity := by
  norm_num [legZ, OptionPosition.pnl]

/-- C7 (amended): `pnl = (exit_mid − entry_price) × quantity` when `exit_mid`
is set to a nonzero value; `pnl = 0` when `exit_mid` is unset **or set to
`0.0`** (the source tests `if self.exit_mid`, which is Python-falsy for both
`None` and `0.0`). -/
theorem C7_leg_pnl (o : OptionPosition) :
    (∀ m : ℚ, o.exit_mid = some m → m ≠ 0 → o.pnl = (m - o.entry_price) * o.quantity) ∧
    (o.exit_mid = none → o.pnl = 0) ∧ (o.exit_mid = some 0 → o.pnl = 0) := by
  refine ⟨?_, ?_, ?_⟩
  · intro m hm hm0
    simp [OptionPosition.pnl, hm, hm0]
  · intro hm
    simp [OptionPosition.pnl, hm]
  · intro hm
    simp [OptionPosition.pnl, hm]

/-- A leg whose `exit_mid` is set to the nonzero value `3`. -/
def legW : OptionPosition := ⟨5, 'C', 1, 2, 1, some 3⟩

/-- C7 witness -/
theorem C7_leg_pnl_witness :
    legW.exit_mid = some 3 ∧ (3 : ℚ) ≠ 0 ∧
      legW.pnl = ((3 : ℚ) - legW.entry_price) * legW.quantity :=
  ⟨rfl, by norm_num, (C7_leg_pnl legW).1 3 rfl (by norm_num)⟩

/-! ## Zero-position metrics (C9) -/

/-- C9: the empty closed-position list yields exactly the fixed zero record;
no field is `NaN` (`sortino` is the number `0`, not `none`) and no exception
is raised (the embedded calculator is total). -/
theorem C9_empty_metrics :
    calculateMetrics [] =
      { total_pnl := 0, win_rate := 0, num_positions := 0, mar := 0,
        sortino := some 0, ret := 0, profit_factor := some 0 } := rfl

/-! ## Sortino and the downside standard deviation (C8) -/

/-- A single-leg closed position with pnl −1 on entry notional 2: its trade
return −1/2 is the run's only downside return. -/
def posLoss : Position := ⟨1, 1, [⟨105, 'C', 2, 1, 2, some 1⟩], some 2⟩

lemma tradeReturns_posLoss : (tradeReturns [posLoss]).filter (· < 0) = [-(1/2)] := by
  norm_num [tradeReturns, posLoss, Position.pnl, OptionPosition.pnl, Position.entry_price,
    List.filter]

/-- C8 counterexample: with exactly one negative trade return the code's
`downside_std` is pandas' `NaN` (not the claim's `0`) and `sortino` is `NaN`
(the claim says `sortino` is never NaN). -/
theorem C8_single_downside_nan :
    (calculateMetrics [posLoss]).sortino = none ∧ downsideStd [posLoss] ≠ some 0 := by
  have h : downsideStd [posLoss] = none := by
    rw [downsideStd, tradeReturns_posLoss]
    norm_num [pdStd]
  have hs : (calculateMetrics [posLoss]).sortino = sortinoOf [posLoss] := rfl
  constructor
  · rw [hs, sortinoOf, h]
  · rw [h]
    simp

/-- C8 (amended): `downside_std` is the ddof=1 sample standard deviation of
the negative trade returns when there are at least two of them, `0` when
there are none, and `NaN` when there is exactly one (pandas `Series.std` of a
length-1 series); `sortino = total_return / downside_std` when `downside_std`
is a nonzero number, `total_return` when it is `0`, and `NaN` (so not a
number at all) when `downside_std` is `NaN` — in particular `sortino` IS
`NaN` whenever exactly one trade return is negative.  (A position of zero
`abs(entry_price())` would raise `ZeroDivisionError` at the returns
computation before any of this, hence the nonzeroness hypothesis.) -/
theorem C8_downside_std_and_sortino (ps : List Position) (h1 : ps ≠ [])
    (hnz : ∀ p ∈ ps, p.entry_price ≠ 0) :
    ((tradeReturns ps).filter (· < 0) = [] →
      downsideStd ps = some 0 ∧ (calculateMetrics ps).sortino = some ((totalReturn ps : ℝ))) ∧
    (((tradeReturns ps).filter (· < 0)).length = 1 →
      downsideStd ps = none ∧ (calculateMetrics ps).sortino = none) ∧
    (2 ≤ ((tradeReturns ps).filter (· < 0)).length →
      downsideStd ps =
        some (Real.sqrt (((((tradeReturns ps).filter (· < 0)).map
            (fun x => (x - ((tradeReturns ps).filter (· < 0)).sum /
              (((tradeReturns ps).filter (· < 0)).length : ℚ)) ^ 2)).sum /
            ((((tradeReturns ps).filter (· < 0)).length : ℚ) - 1) : ℚ) : ℝ)) ∧
      (calculateMetrics ps).sortino =
        (match downsideStd ps with
         | none => none
         | some s => if s ≠ 0 then some ((totalReturn ps : ℝ) / s)
                     else some ((totalReturn ps : ℝ)))) := by
  have hs : (calculateMetrics ps).sortino = sortinoOf ps := by
    cases ps with
    | nil => exact absurd rfl h1
    | cons p rest => rfl
  refine ⟨?_, ?_, ?_⟩
  · intro hd
    have h2 : downsideStd ps = some 0 := by
      simp [downsideStd, hd]
    refine ⟨h2, ?_⟩
    rw [hs, sortinoOf, h2]
    simp
  · intro hd
    have h2 : downsideStd ps = none := by
      rw [downsideStd]
      simp only [hd]
      norm_num [pdStd, hd]
    refine ⟨h2, ?_⟩
    rw [hs, sortinoOf, h2]
  · intro hd
    have h0 : 0 < ((tradeReturns ps).filter (· < 0)).length :=
      lt_of_lt_of_le (by norm_num) hd
    have h2 : downsideStd ps =
        some (Real.sqrt (((((tradeReturns ps).filter (· < 0)).map
            (fun x => (x - ((tradeReturns ps).filter (· < 0)).sum /
              (((tradeReturns ps).filter (· < 0)).length : ℚ)) ^ 2)).sum /
            ((((tradeReturns ps).filter (· < 0)).length : ℚ) - 1) : ℚ) : ℝ)) := by
      rw [downsideStd]
      simp only [h0, if_pos]
      rw [pdStd, if_pos hd]
    refine ⟨h2, ?_⟩
    rw [hs, sortinoOf]

/-- C8 witness: `[posLoss]` is nonempty with nonzero entry notional and has
exactly one negative return; the theorem gives `downside_std = NaN` there. -/
theorem C8_downside_std_and_sortino_witness :
    (([posLoss] : List Position) ≠ [] ∧ (∀ p ∈ [posLoss], p.entry_price ≠ 0) ∧
        ((tradeReturns [posLoss]).filter (· < 0)).length = 1) ∧
      downsideStd [posLoss] = none := by
  have hl : ((tradeReturns [posLoss]).filter (· < 0)).length = 1 := by
    rw [tradeReturns_posLoss]
    rfl
  have hnz : ∀ p ∈ [posLoss], p.entry_price ≠ 0 := by
    intro p hp
    rw [List.mem_singleton.mp hp]
    norm_num [posLoss, Position.entry_price]
  exact ⟨⟨by simp, hnz, hl⟩,
    ((C8_downside_std_and_sortino [posLoss] (by simp) hnz).2.1 hl).1⟩

/-! ## `current_price` is decided by the first leg (C10) -/

/-- C10: whenever the first leg's `exit_mid` is `None` or `0.0`,
`current_price()` returns `0`, whatever the other legs' exit mids are. -/
theorem C10_first_leg_decides_pricing (p : Position) (o : OptionPosition)
    (rest : List OptionPosition) (h1 : p.options = o :: rest)
    (h2 : o.exit_mid = none ∨ o.exit_mid = some 0) :
    p.current_price = some 0 := by
  rcases h2 with h2 | h2 <;> simp [Position.current_price, h1, h2]

/-- A position whose first leg is unpriced while its second leg carries a
nonzero exit mid. -/
def posFirstNone : Position :=
  ⟨1, 1, [⟨105, 'C', 19, 1, 20, none⟩, ⟨95, 'P', 17, 1, 18, some 7⟩], none⟩

/-- C10 witness -/
theorem C10_first_leg_decides_pricing_witness :
    posFirstNone.options =
        ⟨105, 'C', 19, 1, 20, none⟩ :: [⟨95, 'P', 17, 1, 18, some 7⟩] ∧
      posFirstNone.current_price = some 0 :=
  ⟨rfl, C10_first_leg_decides_pricing posFirstNone _ _ rfl (Or.inl rfl)⟩
